import Mathlib

/-!
Verification development for the batch resolution and partitioning engine of a
data-quality validation framework.  The repository ships a JSON-schema
description of its `JSONAsset` configuration (with the `Sorter`,
`FileNamePartitionerYearly`, `FileNamePartitionerMonthly`,
`FileNamePartitionerDaily`, `FileNamePartitionerPath` and `BatchDefinition`
definitions); that schema is embedded below.  The behavioural parts of the
engine (partition-key extraction, multi-key sorting, batch-request resolution,
batch-spec construction) are not shipped as executable code in the examined
material, so those parts are modelled from the specification text, as marked on
each definition.
-/

namespace GXBatch

/-- A JSON value, the data format in which asset configuration is supplied. -/
inductive JVal where
  | null
  | bool (b : Bool)
  | num (n : Int)
  | str (s : String)
  | arr (xs : List JVal)
  | obj (fields : List (String × JVal))

/-- Lookup of a field in an ordered string-keyed association list (first match
wins, as for JSON object keys). -/
def lookupField {α : Type} : List (String × α) → String → Option α
  | [], _ => none
  | (k, v) :: rest, f => if k = f then some v else lookupField rest f

/-- Validator for the `Sorter` schema definition: an object whose required
`key` property is a string and whose optional `reverse` property, when
present, is a boolean (default false). -/
def validSorter : JVal → Bool
  | .obj fs =>
    (match lookupField fs "key" with
      | some (.str _) => true
      | _ => false) &&
    (match lookupField fs "reverse" with
      | none => true
      | some (.bool _) => true
      | some _ => false)
  | _ => false

/-- Shared validator body for the yearly, monthly and daily
`FileNamePartitioner` schema definitions: `regex` is required and must be a
string, `sort_ascending` must be a boolean when present, `param_names` must be
an array when present (its items are unconstrained).  The three dated variants
declare identical constraints and differ only in the declared default of
`param_names`. -/
def validDatedPartitioner : JVal → Bool
  | .obj fs =>
    (match lookupField fs "regex" with
      | some (.str _) => true
      | _ => false) &&
    (match lookupField fs "sort_ascending" with
      | none => true
      | some (.bool _) => true
      | some _ => false) &&
    (match lookupField fs "param_names" with
      | none => true
      | some (.arr _) => true
      | some _ => false)
  | _ => false

/-- Validator for the `FileNamePartitionerYearly` schema definition. -/
def validFileNamePartitionerYearly (v : JVal) : Bool :=
  validDatedPartitioner v

/-- Validator for the `FileNamePartitionerMonthly` schema definition. -/
def validFileNamePartitionerMonthly (v : JVal) : Bool :=
  validDatedPartitioner v

/-- Validator for the `FileNamePartitionerDaily` schema definition. -/
def validFileNamePartitionerDaily (v : JVal) : Bool :=
  validDatedPartitioner v

/-- Validator for the `FileNamePartitionerPath` schema definition: `regex` is
required and must be a string, `sort_ascending` must be a boolean when
present; no `param_names` property is declared. -/
def validFileNamePartitionerPath : JVal → Bool
  | .obj fs =>
    (match lookupField fs "regex" with
      | some (.str _) => true
      | _ => false) &&
    (match lookupField fs "sort_ascending" with
      | none => true
      | some (.bool _) => true
      | some _ => false)
  | _ => false

/-- Validator for the `BatchDefinition` schema definition: `name` is required
and must be a string; `id` must be a string when present; `partitioner`, when
present, must satisfy at least one of the four partitioner variant schemas
(JSON-schema `anyOf`). -/
def validBatchDefinition : JVal → Bool
  | .obj fs =>
    (match lookupField fs "name" with
      | some (.str _) => true
      | _ => false) &&
    (match lookupField fs "id" with
      | none => true
      | some (.str _) => true
      | some _ => false) &&
    (match lookupField fs "partitioner" with
      | none => true
      | some p =>
          validFileNamePartitionerYearly p || validFileNamePartitionerMonthly p ||
          validFileNamePartitionerDaily p || validFileNamePartitionerPath p)
  | _ => false

/-- Whether a JSON value validated by the `BatchDefinition` schema carries a
`partitioner` property matching exactly one of the four variant schemas.  This
is the reading of the claim that a `BatchDefinition` is a tagged union with
exactly one active partitioner variant. -/
def hasExactlyOnePartitionerVariant : JVal → Bool
  | .obj fs =>
    (match lookupField fs "partitioner" with
      | some p =>
          ((if validFileNamePartitionerYearly p then 1 else 0) +
           (if validFileNamePartitionerMonthly p then 1 else 0) +
           (if validFileNamePartitionerDaily p then 1 else 0) +
           (if validFileNamePartitionerPath p then 1 else 0) : Nat) == 1
      | none => false)
  | _ => false

/-- Property names declared by the `JSONAsset` schema; with
`additionalProperties` set to false these are the only keys a configuration
object may carry. -/
def jsonAssetPropNames : List String :=
  ["name", "type", "id", "order_by", "batch_metadata", "batch_definitions",
   "connect_options", "orient", "typ", "dtype", "convert_axes",
   "convert_dates", "keep_default_dates", "numpy", "precise_float",
   "date_unit", "encoding", "encoding_errors", "lines", "chunksize",
   "compression", "nrows", "storage_options"]

/-- Required property names of the `JSONAsset` schema. -/
def jsonAssetRequired : List String := ["name"]

/-- Per-property type check for the `JSONAsset` schema, applied to any
property that is present.  Keys not matched here are undeclared. -/
def checkJSONAssetProp (k : String) (v : JVal) : Bool :=
  if k = "name" then (match v with | .str _ => true | _ => false)
  else if k = "type" then (match v with | .str s => s = "json" | _ => false)
  else if k = "id" then (match v with | .str _ => true | _ => false)
  else if k = "order_by" then
    (match v with | .arr xs => xs.all validSorter | _ => false)
  else if k = "batch_metadata" then (match v with | .obj _ => true | _ => false)
  else if k = "batch_definitions" then
    (match v with | .arr xs => xs.all validBatchDefinition | _ => false)
  else if k = "connect_options" then (match v with | .obj _ => true | _ => false)
  else if k = "orient" then (match v with | .str _ => true | _ => false)
  else if k = "typ" then
    (match v with | .str s => s = "frame" || s = "series" | _ => false)
  else if k = "dtype" then (match v with | .obj _ => true | _ => false)
  else if k = "convert_axes" then true
  else if k = "convert_dates" then
    (match v with
      | .bool _ => true
      | .arr xs => xs.all fun x => match x with | .str _ => true | _ => false
      | _ => false)
  else if k = "keep_default_dates" then (match v with | .bool _ => true | _ => false)
  else if k = "numpy" then (match v with | .bool _ => true | _ => false)
  else if k = "precise_float" then (match v with | .bool _ => true | _ => false)
  else if k = "date_unit" then (match v with | .str _ => true | _ => false)
  else if k = "encoding" then (match v with | .str _ => true | _ => false)
  else if k = "encoding_errors" then (match v with | .str _ => true | _ => false)
  else if k = "lines" then (match v with | .bool _ => true | _ => false)
  else if k = "chunksize" then (match v with | .num _ => true | _ => false)
  else if k = "compression" then
    (match v with
      | .str s => decide (s ∈ ["infer", "gzip", "bz2", "zip", "xz", "zstd", "tar"])
      | .obj _ => true
      | _ => false)
  else if k = "nrows" then (match v with | .num _ => true | _ => false)
  else if k = "storage_options" then (match v with | .obj _ => true | _ => false)
  else false

/-- Validator for the `JSONAsset` schema: an object whose required `name`
property is present as a string, each of whose keys is among the declared
property names (`additionalProperties` is false) and passes its per-property
type check. -/
def validJSONAsset : JVal → Bool
  | .obj fs =>
    (match lookupField fs "name" with
      | some (.str _) => true
      | _ => false) &&
    fs.all fun kv => decide (kv.1 ∈ jsonAssetPropNames) && checkJSONAssetProp kv.1 kv.2
  | _ => false

/-- Configuration shape of one partitioner variant as declared in the schema:
its declared property names, its required property names, the declared default
of `sort_ascending`, and the declared default of `param_names` (none when the
variant does not declare a `param_names` property). -/
structure PartitionerSchema where
  properties : List String
  required : List String
  sortAscendingDefault : Bool
  paramNamesDefault : Option (List String)
deriving DecidableEq

/-- Schema content of `FileNamePartitionerYearly`. -/
def FileNamePartitionerYearlySchema : PartitionerSchema :=
  ⟨["regex", "sort_ascending", "param_names"], ["regex"], true, some ["year"]⟩

/-- Schema content of `FileNamePartitionerMonthly`. -/
def FileNamePartitionerMonthlySchema : PartitionerSchema :=
  ⟨["regex", "sort_ascending", "param_names"], ["regex"], true, some ["year", "month"]⟩

/-- Schema content of `FileNamePartitionerDaily`. -/
def FileNamePartitionerDailySchema : PartitionerSchema :=
  ⟨["regex", "sort_ascending", "param_names"], ["regex"], true,
   some ["year", "month", "day"]⟩

/-- Schema content of `FileNamePartitionerPath`. -/
def FileNamePartitionerPathSchema : PartitionerSchema :=
  ⟨["regex", "sort_ascending"], ["regex"], true, none⟩

/-- The parts of a partitioner variant schema other than the `param_names`
default: properties, required list and the `sort_ascending` default. -/
def schemaCore (s : PartitionerSchema) : List String × List String × Bool :=
  (s.properties, s.required, s.sortAscendingDefault)

/-! ### Scalar values and comparators

Modelled from the spec: partition-key values are scalars, numeric when the
captured text parses as an integer for every observed value of the field, a
string otherwise; comparison is by natural scalar ordering. -/

/-- Three-way comparison of natural numbers. -/
def natCmp (a b : Nat) : Ordering :=
  if a < b then .lt else if b < a then .gt else .eq

/-- Lexicographic three-way comparison of lists of naturals, used as the
string ordering via code points. -/
def natListCmp : List Nat → List Nat → Ordering
  | [], [] => .eq
  | [], _ :: _ => .lt
  | _ :: _, [] => .gt
  | a :: as, b :: bs => (natCmp a b).then (natListCmp as bs)

/-- Lexicographic string comparison by character code points. -/
def strCmp (s1 s2 : String) : Ordering :=
  natListCmp (s1.data.map Char.toNat) (s2.data.map Char.toNat)

/-- A partition-key scalar: a natural number (a captured value that parses as
an integer) or a raw string. -/
inductive Scalar where
  | num (n : Nat)
  | str (s : String)
deriving DecidableEq

/-- Natural scalar ordering: numeric comparison between numbers, string
comparison between strings, with all numbers ordered before all strings so
that the comparison is total. -/
def Scalar.cmp : Scalar → Scalar → Ordering
  | .num a, .num b => natCmp a b
  | .num _, .str _ => .lt
  | .str _, .num _ => .gt
  | .str a, .str b => strCmp a b

/-- Comparison of optional scalars (a missing field sorts before any present
value). -/
def optCmp : Option Scalar → Option Scalar → Ordering
  | none, none => .eq
  | none, some _ => .lt
  | some _, none => .gt
  | some a, some b => Scalar.cmp a b

/-- A `Sorter` as declared in the schema: a required `key` naming a
partition-key field and a `reverse` flag defaulting to false. -/
structure Sorter where
  key : String
  reverse : Bool := false

/-- A partition key after the per-field numeric coercion decision: an ordered
mapping from field name to scalar. -/
abbrev ScalarKey := List (String × Scalar)

/-- Modelled from the spec: comparison of two partition keys under a single
`Sorter` compares the values of the named field, inverting the direction when
the `reverse` flag is set. -/
def sorterCmp (s : Sorter) (k1 k2 : ScalarKey) : Ordering :=
  let o := optCmp (lookupField k1 s.key) (lookupField k2 s.key)
  if s.reverse then o.swap else o

/-- Modelled from the spec: comparison under an ordered sequence of sorters is
lexicographic, comparing by the first sorter and falling through to the rest
on equality. -/
def sortersCmp : List Sorter → ScalarKey → ScalarKey → Ordering
  | [], _, _ => .eq
  | s :: S, k1, k2 => (sorterCmp s k1 k2).then (sortersCmp S k1 k2)

/-! ### Comparator laws -/

/-- The laws a three-way comparator must satisfy for sorting by it to be
well behaved: antisymmetry of the verdict under argument swap and the four
transitivity compositions on the non-strict side. -/
structure LawfulCmp {α : Type} (cmp : α → α → Ordering) : Prop where
  swap_eq : ∀ a b, cmp b a = (cmp a b).swap
  lt_lt : ∀ a b c, cmp a b = .lt → cmp b c = .lt → cmp a c = .lt
  eq_eq : ∀ a b c, cmp a b = .eq → cmp b c = .eq → cmp a c = .eq
  eq_lt : ∀ a b c, cmp a b = .eq → cmp b c = .lt → cmp a c = .lt
  lt_eq : ∀ a b c, cmp a b = .lt → cmp b c = .eq → cmp a c = .lt

theorem natCmp_eq_lt {a b : Nat} : natCmp a b = .lt ↔ a < b := by
  unfold natCmp; split_ifs with h1 h2 <;> simp_all <;> omega

theorem natCmp_eq_eq {a b : Nat} : natCmp a b = .eq ↔ a = b := by
  unfold natCmp; split_ifs with h1 h2 <;> simp_all <;> omega

theorem natCmp_eq_gt {a b : Nat} : natCmp a b = .gt ↔ b < a := by
  unfold natCmp; split_ifs with h1 h2 <;> simp_all <;> omega

theorem natCmp_lawful : LawfulCmp natCmp := by
  constructor
  · intro a b
    rcases Nat.lt_trichotomy a b with h | h | h <;>
      simp_all [natCmp, Nat.lt_asymm, Nat.lt_irrefl, Ordering.swap]
  · intro a b c h1 h2
    rw [natCmp_eq_lt] at *; omega
  · intro a b c h1 h2
    rw [natCmp_eq_eq] at *; omega
  · intro a b c h1 h2
    rw [natCmp_eq_eq] at h1; rw [natCmp_eq_lt] at *; omega
  · intro a b c h1 h2
    rw [natCmp_eq_eq] at h2; rw [natCmp_eq_lt] at *; omega

theorem then_eq_lt {o1 o2 : Ordering} :
    o1.then o2 = .lt ↔ o1 = .lt ∨ (o1 = .eq ∧ o2 = .lt) := by
  cases o1 <;> simp [Ordering.then]

theorem then_eq_eq {o1 o2 : Ordering} :
    o1.then o2 = .eq ↔ o1 = .eq ∧ o2 = .eq := by
  cases o1 <;> simp [Ordering.then]

theorem then_eq_gt {o1 o2 : Ordering} :
    o1.then o2 = .gt ↔ o1 = .gt ∨ (o1 = .eq ∧ o2 = .gt) := by
  cases o1 <;> simp [Ordering.then]

theorem then_swap {o1 o2 : Ordering} :
    (o1.then o2).swap = (o1.swap).then (o2.swap) := by
  cases o1 <;> cases o2 <;> rfl

theorem natListCmp_swap : ∀ as bs : List Nat, natListCmp bs as = (natListCmp as bs).swap
  | [], [] => rfl
  | [], _ :: _ => rfl
  | _ :: _, [] => rfl
  | a :: as, b :: bs => by
    simp only [natListCmp, then_swap, natCmp_lawful.swap_eq a b,
      natListCmp_swap as bs]

theorem natListCmp_lt_lt : ∀ as bs cs : List Nat, natListCmp as bs = .lt →
    natListCmp bs cs = .lt → natListCmp as cs = .lt
  | [], _ :: _, _ :: _, _, _ => rfl
  | a :: as, b :: bs, c :: cs, h1, h2 => by
    simp only [natListCmp, then_eq_lt, natCmp_eq_lt, natCmp_eq_eq] at h1 h2 ⊢
    rcases h1 with h1 | ⟨h1e, h1r⟩ <;> rcases h2 with h2 | ⟨h2e, h2r⟩
    · exact Or.inl (by omega)
    · exact Or.inl (by omega)
    · exact Or.inl (by omega)
    · exact Or.inr ⟨by omega, natListCmp_lt_lt as bs cs h1r h2r⟩

theorem natListCmp_eq_eq : ∀ as bs cs : List Nat, natListCmp as bs = .eq →
    natListCmp bs cs = .eq → natListCmp as cs = .eq
  | [], [], [], _, _ => rfl
  | a :: as, b :: bs, c :: cs, h1, h2 => by
    simp only [natListCmp, then_eq_eq, natCmp_eq_eq] at h1 h2 ⊢
    exact ⟨by omega, natListCmp_eq_eq as bs cs h1.2 h2.2⟩

theorem natListCmp_eq_lt : ∀ as bs cs : List Nat, natListCmp as bs = .eq →
    natListCmp bs cs = .lt → natListCmp as cs = .lt
  | [], [], _ :: _, _, _ => rfl
  | a :: as, b :: bs, c :: cs, h1, h2 => by
    simp only [natListCmp, then_eq_eq, then_eq_lt, natCmp_eq_lt, natCmp_eq_eq] at h1 h2 ⊢
    rcases h2 with h2 | ⟨h2e, h2r⟩
    · exact Or.inl (by omega)
    · exact Or.inr ⟨by omega, natListCmp_eq_lt as bs cs h1.2 h2r⟩

theorem natListCmp_lt_eq : ∀ as bs cs : List Nat, natListCmp as bs = .lt →
    natListCmp bs cs = .eq → natListCmp as cs = .lt
  | [], _ :: _, _ :: _, _, _ => rfl
  | a :: as, b :: bs, c :: cs, h1, h2 => by
    simp only [natListCmp, then_eq_eq, then_eq_lt, natCmp_eq_lt, natCmp_eq_eq] at h1 h2 ⊢
    rcases h1 with h1 | ⟨h1e, h1r⟩
    · exact Or.inl (by omega)
    · exact Or.inr ⟨by omega, natListCmp_lt_eq as bs cs h1r h2.2⟩

theorem natListCmp_lawful : LawfulCmp natListCmp :=
  ⟨natListCmp_swap, natListCmp_lt_lt, natListCmp_eq_eq, natListCmp_eq_lt,
   natListCmp_lt_eq⟩

theorem strCmp_lawful : LawfulCmp strCmp := by
  constructor
  · intro a b; exact natListCmp_lawful.swap_eq _ _
  · intro a b c; exact natListCmp_lawful.lt_lt _ _ _
  · intro a b c; exact natListCmp_lawful.eq_eq _ _ _
  · intro a b c; exact natListCmp_lawful.eq_lt _ _ _
  · intro a b c; exact natListCmp_lawful.lt_eq _ _ _

theorem scalarCmp_lawful : LawfulCmp Scalar.cmp := by
  constructor
  · intro a b
    cases a <;> cases b
    · exact natCmp_lawful.swap_eq _ _
    · rfl
    · rfl
    · exact strCmp_lawful.swap_eq _ _
  · intro a b c h1 h2
    cases a <;> cases b <;> cases c <;> simp_all [Scalar.cmp]
    · exact natCmp_lawful.lt_lt _ _ _ h1 h2
    · exact strCmp_lawful.lt_lt _ _ _ h1 h2
  · intro a b c h1 h2
    cases a <;> cases b <;> cases c <;> simp_all [Scalar.cmp]
    · exact natCmp_lawful.eq_eq _ _ _ h1 h2
    · exact strCmp_lawful.eq_eq _ _ _ h1 h2
  · intro a b c h1 h2
    cases a <;> cases b <;> cases c <;> simp_all [Scalar.cmp]
    · exact natCmp_lawful.eq_lt _ _ _ h1 h2
    · exact strCmp_lawful.eq_lt _ _ _ h1 h2
  · intro a b c h1 h2
    cases a <;> cases b <;> cases c <;> simp_all [Scalar.cmp]
    · exact natCmp_lawful.lt_eq _ _ _ h1 h2
    · exact strCmp_lawful.lt_eq _ _ _ h1 h2

theorem optCmp_lawful : LawfulCmp optCmp := by
  constructor
  · intro a b
    cases a <;> cases b
    · rfl
    · rfl
    · rfl
    · exact scalarCmp_lawful.swap_eq _ _
  · intro a b c h1 h2
    cases a <;> cases b <;> cases c <;> simp_all [optCmp]
    exact scalarCmp_lawful.lt_lt _ _ _ h1 h2
  · intro a b c h1 h2
    cases a <;> cases b <;> cases c <;> simp_all [optCmp]
    exact scalarCmp_lawful.eq_eq _ _ _ h1 h2
  · intro a b c h1 h2
    cases a <;> cases b <;> cases c <;> simp_all [optCmp]
    exact scalarCmp_lawful.eq_lt _ _ _ h1 h2
  · intro a b c h1 h2
    cases a <;> cases b <;> cases c <;> simp_all [optCmp]
    exact scalarCmp_lawful.lt_eq _ _ _ h1 h2

/-- Transporting comparator laws along a projection. -/
theorem LawfulCmp.comap {α β : Type} {cmp : α → α → Ordering}
    (h : LawfulCmp cmp) (f : β → α) : LawfulCmp (fun a b => cmp (f a) (f b)) :=
  ⟨fun a b => h.swap_eq (f a) (f b),
   fun a b c => h.lt_lt (f a) (f b) (f c),
   fun a b c => h.eq_eq (f a) (f b) (f c),
   fun a b c => h.eq_lt (f a) (f b) (f c),
   fun a b c => h.lt_eq (f a) (f b) (f c)⟩

theorem swap_eq_lt {o : Ordering} : o.swap = .lt ↔ o = .gt := by
  cases o <;> simp [Ordering.swap]

theorem swap_eq_eq {o : Ordering} : o.swap = .eq ↔ o = .eq := by
  cases o <;> simp [Ordering.swap]

theorem swap_eq_gt {o : Ordering} : o.swap = .gt ↔ o = .lt := by
  cases o <;> simp [Ordering.swap]

/-- Reversing a lawful comparator is lawful. -/
theorem LawfulCmp.swapped {α : Type} {cmp : α → α → Ordering}
    (h : LawfulCmp cmp) : LawfulCmp (fun a b => (cmp a b).swap) := by
  have key : ∀ (a b : α) (o : Ordering), cmp a b = o → cmp b a = o.swap := by
    intro a b o hab
    rw [h.swap_eq a b, hab]
  constructor
  · intro a b
    show (cmp b a).swap = (cmp a b).swap.swap
    rw [h.swap_eq a b]
  · intro a b c h1 h2
    simp only [swap_eq_lt] at h1 h2 ⊢
    exact key c a .lt (h.lt_lt c b a (key b c .gt h2) (key a b .gt h1))
  · intro a b c h1 h2
    simp only [swap_eq_eq] at h1 h2 ⊢
    exact h.eq_eq a b c h1 h2
  · intro a b c h1 h2
    simp only [swap_eq_eq, swap_eq_lt] at h1 h2 ⊢
    exact key c a .lt (h.lt_eq c b a (key b c .gt h2) (key a b .eq h1))
  · intro a b c h1 h2
    simp only [swap_eq_eq, swap_eq_lt] at h1 h2 ⊢
    exact key c a .lt (h.eq_lt c b a (key b c .eq h2) (key a b .gt h1))

/-- Lexicographic composition of two lawful comparators is lawful. -/
theorem LawfulCmp.lex {α : Type} {f g : α → α → Ordering}
    (hf : LawfulCmp f) (hg : LawfulCmp g) :
    LawfulCmp (fun a b => (f a b).then (g a b)) := by
  constructor
  · intro a b
    rw [hf.swap_eq a b, hg.swap_eq a b, then_swap]
  · intro a b c h1 h2
    simp only [then_eq_lt, then_eq_eq] at h1 h2 ⊢
    rcases h1 with h1 | ⟨h1e, h1r⟩ <;> rcases h2 with h2 | ⟨h2e, h2r⟩
    · exact Or.inl (hf.lt_lt a b c h1 h2)
    · exact Or.inl (hf.lt_eq a b c h1 h2e)
    · exact Or.inl (hf.eq_lt a b c h1e h2)
    · exact Or.inr ⟨hf.eq_eq a b c h1e h2e, hg.lt_lt a b c h1r h2r⟩
  · intro a b c h1 h2
    simp only [then_eq_eq] at h1 h2 ⊢
    exact ⟨hf.eq_eq a b c h1.1 h2.1, hg.eq_eq a b c h1.2 h2.2⟩
  · intro a b c h1 h2
    simp only [then_eq_lt, then_eq_eq] at h1 h2 ⊢
    rcases h2 with h2 | ⟨h2e, h2r⟩
    · exact Or.inl (hf.eq_lt a b c h1.1 h2)
    · exact Or.inr ⟨hf.eq_eq a b c h1.1 h2e, hg.eq_lt a b c h1.2 h2r⟩
  · intro a b c h1 h2
    simp only [then_eq_lt, then_eq_eq] at h1 h2 ⊢
    rcases h1 with h1 | ⟨h1e, h1r⟩
    · exact Or.inl (hf.lt_eq a b c h1 h2.1)
    · exact Or.inr ⟨hf.eq_eq a b c h1e h2.1, hg.lt_eq a b c h1r h2.2⟩

/-- A single sorter yields a lawful comparator on scalar keys. -/
theorem sorterCmp_lawful (s : Sorter) : LawfulCmp (sorterCmp s) := by
  have base : LawfulCmp fun k1 k2 : ScalarKey =>
      optCmp (lookupField k1 s.key) (lookupField k2 s.key) := by
    have := optCmp_lawful.comap (fun k : ScalarKey => lookupField k s.key)
    exact this
  cases hr : s.reverse
  · have : sorterCmp s = fun k1 k2 =>
        optCmp (lookupField k1 s.key) (lookupField k2 s.key) := by
      funext k1 k2; simp [sorterCmp, hr]
    rw [this]; exact base
  · have : sorterCmp s = fun k1 k2 =>
        (optCmp (lookupField k1 s.key) (lookupField k2 s.key)).swap := by
      funext k1 k2; simp [sorterCmp, hr]
    rw [this]; exact base.swapped

/-- A sequence of sorters yields a lawful comparator on scalar keys. -/
theorem sortersCmp_lawful : ∀ S : List Sorter, LawfulCmp (sortersCmp S)
  | [] => by
    constructor <;> intro a b <;> simp [sortersCmp, Ordering.swap]
  | s :: S => by
    have : sortersCmp (s :: S) = fun k1 k2 =>
        (sorterCmp s k1 k2).then (sortersCmp S k1 k2) := rfl
    rw [this]
    exact (sorterCmp_lawful s).lex (sortersCmp_lawful S)

/-- The non-strict relation induced by a lawful comparator is total. -/
theorem LawfulCmp.le_total {α : Type} {cmp : α → α → Ordering}
    (h : LawfulCmp cmp) (a b : α) : cmp a b ≠ .gt ∨ cmp b a ≠ .gt := by
  by_cases hab : cmp a b = .gt
  · right
    rw [h.swap_eq a b, hab]
    simp [Ordering.swap]
  · left; exact hab

/-- The non-strict relation induced by a lawful comparator is transitive. -/
theorem LawfulCmp.le_trans {α : Type} {cmp : α → α → Ordering}
    (h : LawfulCmp cmp) {a b c : α} (h1 : cmp a b ≠ .gt) (h2 : cmp b c ≠ .gt) :
    cmp a c ≠ .gt := by
  cases hab : cmp a b <;> cases hbc : cmp b c
  · rw [h.lt_lt a b c hab hbc]; intro hx; exact Ordering.noConfusion hx
  · rw [h.lt_eq a b c hab hbc]; intro hx; exact Ordering.noConfusion hx
  · exact absurd hbc h2
  · rw [h.eq_lt a b c hab hbc]; intro hx; exact Ordering.noConfusion hx
  · rw [h.eq_eq a b c hab hbc]; intro hx; exact Ordering.noConfusion hx
  · exact absurd hbc h2
  · exact absurd hab h1
  · exact absurd hab h1
  · exact absurd hab h1

/-! ### Partition-key extraction

Modelled from the spec: a partitioner holds a compiled pattern with named
capture groups; `extract` applies the pattern to a candidate file name and
either produces a partition key, one field per declared parameter name in
declared order, or reports no match. -/

/-- One token of a compiled file-name pattern: a literal run of text, or a
named capture group matching a fixed number of digit characters (as in the
yearly pattern matching `data_` followed by a four-digit `year` group
followed by `.csv`). -/
inductive PatTok where
  | lit (s : String)
  | group (name : String) (width : Nat)

/-- Modelled from the spec: deterministic matching of a token list against the
characters of a candidate name; on success it returns the list of (group
name, captured text) pairs in pattern order. -/
def matchToks : List PatTok → List Char → Option (List (String × String))
  | [], [] => some []
  | [], _ :: _ => none
  | .lit s :: rest, cs =>
    if s.data.isPrefixOf cs then matchToks rest (cs.drop s.data.length)
    else none
  | .group nm width :: rest, cs =>
    let taken := cs.take width
    if taken.length = width && taken.all Char.isDigit then
      (matchToks rest (cs.drop width)).map fun groups => (nm, String.mk taken) :: groups
    else none

/-- A raw partition key as produced by extraction: an ordered mapping from
field name to the captured text. -/
abbrev PartitionKey := List (String × String)

/-- A file-name partitioner configuration: the compiled pattern, the
`sort_ascending` flag (default true) and the ordered parameter names (for the
dated variants; the schema defaults are `year`, then `year`/`month`, then
`year`/`month`/`day`). -/
structure FileNamePartitioner where
  regex : List PatTok
  sort_ascending : Bool := true
  param_names : List String

/-- Modelled from the spec: `extract` returns a key built from each capture
group named in `param_names`, in their declared order, whenever the name
matches the compiled pattern, and reports no match (not an error) otherwise. -/
def extract (p : FileNamePartitioner) (name : String) : Option PartitionKey :=
  (matchToks p.regex name.data).map fun groups =>
    p.param_names.map fun pn => (pn, (lookupField groups pn).getD "")

/-- Modelled from the spec: the data connector enumerates candidate names in
their given deterministic order and keeps, for each candidate that matches the
pattern, the pair of its location and extracted key; candidates that fail to
match are silently dropped. -/
def listPartitions (p : FileNamePartitioner) (candidates : List String) :
    List (String × PartitionKey) :=
  candidates.filterMap fun c => (extract p c).map fun k => (c, k)

/-! ### Per-field numeric coercion and sorting -/

/-- Whether a list of characters forms a non-empty digit string. -/
def isDigits (cs : List Char) : Bool :=
  !cs.isEmpty && cs.all Char.isDigit

/-- Decimal value of a digit string. -/
def digitsToNat (cs : List Char) : Nat :=
  cs.foldl (fun n c => n * 10 + (c.toNat - 48)) 0

/-- Modelled from the spec: the comparison mode of a field is decided once per
field over the whole observed key set, numeric exactly when every observed
value of the field parses cleanly as an integer. -/
def fieldNumeric (f : String) (ks : List PartitionKey) : Bool :=
  ks.all fun k =>
    match lookupField k f with
    | some v => isDigits v.data
    | none => true

/-- Modelled from the spec: coercion of one raw key relative to the observed
key set, turning each field value into a number when the field was decided
numeric and keeping it as a string otherwise. -/
def coerceKey (ks : List PartitionKey) (k : PartitionKey) : ScalarKey :=
  k.map fun fv =>
    (fv.1, if fieldNumeric fv.1 ks then Scalar.num (digitsToNat fv.2.data)
           else Scalar.str fv.2)

/-- The non-strict candidate order induced by a sorter sequence on
(location, key) pairs, with values coerced relative to the observed key set. -/
abbrev pairLe (S : List Sorter) (ks : List PartitionKey)
    (a b : String × PartitionKey) : Prop :=
  sortersCmp S (coerceKey ks a.2) (coerceKey ks b.2) ≠ .gt

/-- Modelled from the spec: the surviving candidates are ordered by the
sorter sequence with a stable sort, ties retaining enumeration order. -/
def sortPartitions (S : List Sorter) (cands : List (String × PartitionKey)) :
    List (String × PartitionKey) :=
  List.insertionSort (pairLe S (cands.map Prod.snd)) cands

/-- The non-strict order induced by a sorter sequence directly on raw
partition keys, with values coerced relative to the observed key set. -/
abbrev rawKeyLe (S : List Sorter) (ks : List PartitionKey)
    (a b : PartitionKey) : Prop :=
  sortersCmp S (coerceKey ks a) (coerceKey ks b) ≠ .gt

/-- Modelled from the spec: sorting a sequence of partition keys by a sorter
sequence, with the per-field numeric decision taken over that sequence. -/
def sortKeys (S : List Sorter) (K : List PartitionKey) : List PartitionKey :=
  List.insertionSort (rawKeyLe S K) K

/-! ### Batch specs and request resolution -/

/-- An immutable, fully resolved description of one concrete batch: the
literal location, the extracted partition key and the merged read options. -/
structure BatchSpec where
  location : String
  partition_key : PartitionKey
  read_options : List (String × String)
deriving DecidableEq

/-- Modelled from the spec: `build_batch_spec` merges the static read options
of the asset with the per-batch identity, producing a spec that is a pure
function of its inputs. -/
def build_batch_spec (static_options : List (String × String))
    (location : String) (key : PartitionKey) : BatchSpec :=
  ⟨location, key, static_options⟩

/-- The error kinds resolution itself can produce; connection errors belong to
the external enumeration layer and no-match outcomes are not errors. -/
inductive ResolveError where
  | configurationError (field : String)

/-- Outcome of a resolution call: the result together with whether the
enumeration (the only input-output step) was performed. -/
structure ResolveOutcome where
  result : Except ResolveError (List BatchSpec)
  enumerationPerformed : Bool

/-- First constrained field name that is not a parameter name of the
partitioner, if any. -/
def firstUnknownField (paramNames : List String)
    (options : List (String × String)) : Option String :=
  match options with
  | [] => none
  | (f, _) :: rest =>
    if f ∈ paramNames then firstUnknownField paramNames rest else some f

/-- Modelled from the spec: a candidate key matches the constraints exactly
when every explicitly constrained field carries exactly the constrained
value; unconstrained fields are wildcards. -/
def matchesOptions (options : List (String × String)) (k : PartitionKey) : Bool :=
  options.all fun fv => decide (lookupField k fv.1 = some fv.2)

/-- Modelled from the spec: batch-request resolution as a single pass through
the Configured, Enumerated, Filtered, Sorted and Resolved states.  Constraint
validation happens first; an unknown constrained field is a configuration
error raised before any enumeration.  Otherwise candidates are enumerated,
filtered by exact equality on constrained fields, stably sorted and converted
to batch specs; an empty sequence is a valid successful outcome. -/
def resolve (p : FileNamePartitioner) (S : List Sorter)
    (static_options : List (String × String))
    (options : List (String × String)) (candidates : List String) :
    ResolveOutcome :=
  match firstUnknownField p.param_names options with
  | some f => ⟨.error (.configurationError f), false⟩
  | none =>
    let enumerated := listPartitions p candidates
    let filtered := enumerated.filter fun lk => matchesOptions options lk.2
    let sorted := sortPartitions S filtered
    ⟨.ok (sorted.map fun lk => build_batch_spec static_options lk.1 lk.2), true⟩

/-- The yearly example partitioner from the spec scenarios: the pattern
matches `data_`, a four-digit `year` group, then `.csv`; its parameter
names are just `year`. -/
def yearlyExample : FileNamePartitioner :=
  ⟨[.lit "data_", .group "year" 4, .lit ".csv"], true, ["year"]⟩

/-! ### Support lemmas -/

theorem firstUnknownField_eq_none_iff (pn : List String) :
    ∀ opts : List (String × String),
      firstUnknownField pn opts = none ↔ ∀ f v, (f, v) ∈ opts → f ∈ pn := by
  intro opts
  induction opts with
  | nil => simp [firstUnknownField]
  | cons fv rest ih =>
    obtain ⟨f, v⟩ := fv
    by_cases hf : f ∈ pn
    · simp only [firstUnknownField, if_pos hf, ih, List.mem_cons]
      constructor
      · intro h g w hm
        rcases hm with hm | hm
        · injection hm with h1 h2
          exact h1 ▸ hf
        · exact h g w hm
      · intro h g w hm
        exact h g w (Or.inr hm)
    · simp only [firstUnknownField, if_neg hf]
      constructor
      · intro h; exact absurd h (Option.some_ne_none f)
      · intro h
        exact absurd (h f v (List.mem_cons_self _ _)) hf

theorem firstUnknownField_some_not_mem (pn : List String) :
    ∀ (opts : List (String × String)) (g : String),
      firstUnknownField pn opts = some g → g ∉ pn := by
  intro opts
  induction opts with
  | nil => intro g h; exact absurd h (by simp [firstUnknownField])
  | cons fv rest ih =>
    intro g h
    obtain ⟨f, v⟩ := fv
    by_cases hf : f ∈ pn
    · rw [firstUnknownField, if_pos hf] at h
      exact ih g h
    · rw [firstUnknownField, if_neg hf] at h
      injection h with h
      exact h ▸ hf

theorem fieldNumeric_perm {K1 K2 : List PartitionKey} (hperm : K1.Perm K2)
    (f : String) : fieldNumeric f K1 = fieldNumeric f K2 := by
  rw [Bool.eq_iff_iff, fieldNumeric, fieldNumeric, List.all_eq_true, List.all_eq_true]
  constructor
  · intro h k hk; exact h k (hperm.mem_iff.mpr hk)
  · intro h k hk; exact h k (hperm.mem_iff.mp hk)

theorem coerceKey_perm {K1 K2 : List PartitionKey} (hperm : K1.Perm K2) :
    coerceKey K1 = coerceKey K2 := by
  funext k
  unfold coerceKey
  refine List.map_congr_left ?_
  intro fv _
  rw [fieldNumeric_perm hperm]

/-- The field names of a partition key, in order. -/
def keyFields (k : PartitionKey) : List String :=
  k.map Prod.fst

theorem matchesOptions_eq_true_iff (opts : List (String × String)) (k : PartitionKey) :
    matchesOptions opts k = true ↔ ∀ f v, (f, v) ∈ opts → lookupField k f = some v := by
  unfold matchesOptions
  rw [List.all_eq_true]
  constructor
  · intro h f v hm
    simpa using h (f, v) hm
  · intro h fv hm
    obtain ⟨f, v⟩ := fv
    simpa using h f v hm

/-! ### Claim theorems -/

/-- C1: for every partitioner and every input name, extraction returns a key
whose fields are exactly the declared parameter names, in declared order,
whenever the name matches the compiled pattern; when the name does not match,
extraction returns no match rather than an error, and such candidates are
silently dropped from enumeration, as in the yearly scenario over
`data_2019.csv`, `data_2020.csv` and `notes.txt`. -/
theorem extract_key_fields_are_param_names :
    (∀ (p : FileNamePartitioner) (name : String) (groups : List (String × String)),
      matchToks p.regex name.data = some groups →
      (extract p name).map keyFields = some p.param_names) ∧
    (∀ (p : FileNamePartitioner) (name : String),
      matchToks p.regex name.data = none → extract p name = none) ∧
    listPartitions yearlyExample ["data_2019.csv", "data_2020.csv", "notes.txt"] =
      [("data_2019.csv", [("year", "2019")]), ("data_2020.csv", [("year", "2020")])] := by
  refine ⟨?_, ?_, by decide⟩
  · intro p name groups h
    simp [extract, h, keyFields, Function.comp, List.map_map]
    have : (Prod.fst ∘ fun pn : String =>
        (pn, (lookupField groups pn).getD "")) = id := by
      funext pn
      rfl
    rw [this, List.map_id]
  · intro p name h
    simp only [extract, h]
    rfl

/-- C1 witness: the yearly partitioner applied to a matching and a
non-matching name. -/
theorem extract_key_fields_are_param_names_witness :
    (extract yearlyExample "data_2019.csv").map keyFields =
      some yearlyExample.param_names ∧
    extract yearlyExample "notes.txt" = none :=
  ⟨extract_key_fields_are_param_names.1 yearlyExample "data_2019.csv"
      [("year", "2019")] (by decide),
   extract_key_fields_are_param_names.2.1 yearlyExample "notes.txt" (by decide)⟩

/-- C2: comparison under a sorter sequence is lexicographic, each level
inverted by its reverse flag; keys comparing equal after all sorters retain
the stable enumeration order; and a single reversed `year` sorter resolves
years 2018, 2020, 2019 in order 2020, 2019, 2018. -/
theorem sorter_order_lexicographic_reverse_stable :
    (∀ (s : Sorter) (S : List Sorter) (k1 k2 : ScalarKey),
      (sorterCmp s k1 k2 = .eq → sortersCmp (s :: S) k1 k2 = sortersCmp S k1 k2) ∧
      (sorterCmp s k1 k2 ≠ .eq → sortersCmp (s :: S) k1 k2 = sorterCmp s k1 k2)) ∧
    (∀ (f : String) (k1 k2 : ScalarKey),
      sorterCmp ⟨f, true⟩ k1 k2 = (sorterCmp ⟨f, false⟩ k1 k2).swap) ∧
    (∀ (S : List Sorter) (cands : List (String × PartitionKey))
        (a b : String × PartitionKey),
      List.Sublist [a, b] cands →
      sortersCmp S (coerceKey (cands.map Prod.snd) a.2)
        (coerceKey (cands.map Prod.snd) b.2) = .eq →
      List.Sublist [a, b] (sortPartitions S cands)) ∧
    sortPartitions [⟨"year", true⟩]
      [("data_2018.csv", [("year", "2018")]), ("data_2020.csv", [("year", "2020")]),
       ("data_2019.csv", [("year", "2019")])] =
      [("data_2020.csv", [("year", "2020")]), ("data_2019.csv", [("year", "2019")]),
       ("data_2018.csv", [("year", "2018")])] := by
  refine ⟨?_, ?_, ?_, by decide⟩
  · intro s S k1 k2
    constructor
    · intro h
      show (sorterCmp s k1 k2).then (sortersCmp S k1 k2) = sortersCmp S k1 k2
      rw [h]
      cases sortersCmp S k1 k2 <;> rfl
    · intro h
      show (sorterCmp s k1 k2).then (sortersCmp S k1 k2) = sorterCmp s k1 k2
      cases hc : sorterCmp s k1 k2
      · rfl
      · exact absurd hc h
      · rfl
  · intro f k1 k2
    rfl
  · intro S cands a b hsub heq
    have hab : pairLe S (cands.map Prod.snd) a b := by
      intro hgt
      rw [heq] at hgt
      exact Ordering.noConfusion hgt
    exact List.pair_sublist_insertionSort hab hsub

/-- C2 witness: tied keys keep their enumeration order, and the lexicographic
step collapses to the head sorter when the head verdict is strict. -/
theorem sorter_order_lexicographic_reverse_stable_witness :
    List.Sublist
      [("a.csv", [("year", "2019")]), ("b.csv", [("year", "2019")])]
      (sortPartitions [⟨"year", false⟩]
        [("a.csv", [("year", "2019")]), ("b.csv", [("year", "2019")])]) ∧
    sortersCmp [⟨"year", false⟩] [("year", Scalar.num 2018)] [("year", Scalar.num 2020)] =
      sorterCmp ⟨"year", false⟩ [("year", Scalar.num 2018)] [("year", Scalar.num 2020)] :=
  ⟨sorter_order_lexicographic_reverse_stable.2.2.1 [⟨"year", false⟩]
      [("a.csv", [("year", "2019")]), ("b.csv", [("year", "2019")])] _ _
      (List.Sublist.refl _) (by decide),
   (sorter_order_lexicographic_reverse_stable.1 ⟨"year", false⟩ []
      [("year", Scalar.num 2018)] [("year", Scalar.num 2020)]).2 (by decide)⟩

/-- C3: a batch request whose constraint names a field unknown to the
partitioner fails with a configuration error, independently of the candidate
listing (no enumeration input-output is performed); in particular a `month`
constraint against the yearly-only partitioner fails this way. -/
theorem unknown_constraint_is_configuration_error :
    (∀ (p : FileNamePartitioner) (S : List Sorter)
        (so opts : List (String × String)) (cands : List String),
      (∃ f v, (f, v) ∈ opts ∧ f ∉ p.param_names) →
      (∃ g, g ∉ p.param_names ∧
        resolve p S so opts cands = ⟨.error (.configurationError g), false⟩) ∧
      ∀ cands' : List String,
        resolve p S so opts cands = resolve p S so opts cands') ∧
    resolve yearlyExample [] [] [("month", "01")] ["data_2019.csv"] =
      ⟨.error (.configurationError "month"), false⟩ := by
  refine ⟨?_, rfl⟩
  intro p S so opts cands hex
  have hsome : ∃ g, firstUnknownField p.param_names opts = some g := by
    cases hfu : firstUnknownField p.param_names opts with
    | none =>
      obtain ⟨f, v, hm, hnm⟩ := hex
      exact absurd ((firstUnknownField_eq_none_iff _ _).mp hfu f v hm) hnm
    | some g => exact ⟨g, rfl⟩
  obtain ⟨g, hg⟩ := hsome
  refine ⟨⟨g, firstUnknownField_some_not_mem _ _ _ hg, ?_⟩, ?_⟩
  · unfold resolve
    rw [hg]
  · intro cands'
    show resolve p S so opts cands = resolve p S so opts cands'
    unfold resolve
    rw [hg]

/-- C3 witness: the month-constrained request resolves identically with and
without candidates, performing no enumeration. -/
theorem unknown_constraint_is_configuration_error_witness :
    resolve yearlyExample [] [] [("month", "01")] ["data_2019.csv"] =
      resolve yearlyExample [] [] [("month", "01")] [] :=
  (unknown_constraint_is_configuration_error.1 yearlyExample [] []
      [("month", "01")] ["data_2019.csv"]
      ⟨"month", "01", by decide, by decide⟩).2 []

/-- C4: in the filtered step a candidate survives exactly when its partition
key equals the constraint value on every explicitly constrained field, with
unconstrained fields as wildcards; and the `year = 2019` request over the
three-candidate scenario yields exactly the batch spec for
`data_2019.csv`. -/
theorem filtered_step_exact_equality :
    (∀ (opts : List (String × String)) (enumerated : List (String × PartitionKey))
        (lk : String × PartitionKey),
      lk ∈ enumerated.filter (fun x => matchesOptions opts x.2) ↔
        lk ∈ enumerated ∧ ∀ f v, (f, v) ∈ opts → lookupField lk.2 f = some v) ∧
    (resolve yearlyExample [] [] [("year", "2019")]
        ["data_2019.csv", "data_2020.csv", "notes.txt"]).result =
      .ok [⟨"data_2019.csv", [("year", "2019")], []⟩] := by
  refine ⟨?_, rfl⟩
  intro opts enumerated lk
  rw [List.mem_filter, matchesOptions_eq_true_iff]

/-- C4 witness: the matching candidate survives the filter at a concrete
constraint. -/
theorem filtered_step_exact_equality_witness :
    ("data_2019.csv", [("year", "2019")]) ∈
      List.filter (fun x => matchesOptions [("year", "2019")] x.2)
        [("data_2019.csv", [("year", "2019")]),
         ("data_2020.csv", [("year", "2020")])] :=
  (filtered_step_exact_equality.1 [("year", "2019")]
      [("data_2019.csv", [("year", "2019")]), ("data_2020.csv", [("year", "2020")])]
      ("data_2019.csv", [("year", "2019")])).mpr
    ⟨by decide, by
      intro f v hm
      rw [List.mem_singleton] at hm
      injection hm with h1 h2
      subst h1; subst h2
      rfl⟩

/-- C5: an empty result sequence is a valid successful outcome of resolution;
zero-candidate and zero-match requests return an empty ok result, never an
error, whenever the constraints are structurally valid. -/
theorem empty_resolution_result_is_ok :
    (∀ (p : FileNamePartitioner) (S : List Sorter)
        (so opts : List (String × String)) (cands : List String),
      (∀ f v, (f, v) ∈ opts → f ∈ p.param_names) →
      ∃ specs, (resolve p S so opts cands).result = .ok specs) ∧
    (∀ (p : FileNamePartitioner) (S : List Sorter) (so opts : List (String × String)),
      (∀ f v, (f, v) ∈ opts → f ∈ p.param_names) →
      (resolve p S so opts []).result = .ok []) ∧
    (resolve yearlyExample [] [] [("year", "1999")] ["data_2019.csv"]).result =
      .ok [] := by
  have hok : ∀ (p : FileNamePartitioner) (S : List Sorter)
      (so opts : List (String × String)) (cands : List String),
      firstUnknownField p.param_names opts = none →
      (resolve p S so opts cands).result =
        .ok ((sortPartitions S ((listPartitions p cands).filter fun lk =>
          matchesOptions opts lk.2)).map fun lk => build_batch_spec so lk.1 lk.2) := by
    intro p S so opts cands h
    unfold resolve
    rw [h]
  refine ⟨?_, ?_, rfl⟩
  · intro p S so opts cands hvalid
    exact ⟨_, hok p S so opts cands ((firstUnknownField_eq_none_iff _ _).mpr hvalid)⟩
  · intro p S so opts hvalid
    rw [hok p S so opts [] ((firstUnknownField_eq_none_iff _ _).mpr hvalid)]
    rfl

/-- C5 witness: a structurally valid request over an empty candidate listing
returns the empty ok result. -/
theorem empty_resolution_result_is_ok_witness :
    (resolve yearlyExample [] [] [("year", "2019")] []).result = .ok [] :=
  empty_resolution_result_is_ok.2.1 yearlyExample [] [] [("year", "2019")]
    (by
      intro f v hm
      rw [List.mem_singleton] at hm
      injection hm with h1 h2
      subst h1
      decide)

/-- C6: the yearly, monthly and daily partitioner variants differ only in
their declared default parameter names, the path variant declares no
`param_names` property at all, `sort_ascending` defaults to true in every
variant, and `regex` is the only required configuration field. -/
theorem partitioner_variants_differ_only_in_param_names :
    FileNamePartitionerYearlySchema.paramNamesDefault = some ["year"] ∧
    FileNamePartitionerMonthlySchema.paramNamesDefault = some ["year", "month"] ∧
    FileNamePartitionerDailySchema.paramNamesDefault =
      some ["year", "month", "day"] ∧
    FileNamePartitionerPathSchema.paramNamesDefault = none ∧
    "param_names" ∉ FileNamePartitionerPathSchema.properties ∧
    schemaCore FileNamePartitionerYearlySchema =
      schemaCore FileNamePartitionerMonthlySchema ∧
    schemaCore FileNamePartitionerMonthlySchema =
      schemaCore FileNamePartitionerDailySchema ∧
    (FileNamePartitionerYearlySchema.sortAscendingDefault = true ∧
     FileNamePartitionerMonthlySchema.sortAscendingDefault = true ∧
     FileNamePartitionerDailySchema.sortAscendingDefault = true ∧
     FileNamePartitionerPathSchema.sortAscendingDefault = true) ∧
    (FileNamePartitionerYearlySchema.required = ["regex"] ∧
     FileNamePartitionerMonthlySchema.required = ["regex"] ∧
     FileNamePartitionerDailySchema.required = ["regex"] ∧
     FileNamePartitionerPathSchema.required = ["regex"]) ∧
    ∀ v, validFileNamePartitionerYearly v = validFileNamePartitionerMonthly v ∧
      validFileNamePartitionerMonthly v = validFileNamePartitionerDaily v := by
  refine ⟨rfl, rfl, rfl, rfl, by decide, rfl, rfl, ⟨rfl, rfl, rfl, rfl⟩,
    ⟨rfl, rfl, rfl, rfl⟩, ?_⟩
  intro v
  exact ⟨rfl, rfl⟩

/-- C6 witness: the variant validators agree at a concrete value. -/
theorem partitioner_variants_differ_only_in_param_names_witness :
    validFileNamePartitionerYearly (JVal.obj [("regex", JVal.str "pat")]) =
      validFileNamePartitionerMonthly (JVal.obj [("regex", JVal.str "pat")]) :=
  (partitioner_variants_differ_only_in_param_names.2.2.2.2.2.2.2.2.2
    (JVal.obj [("regex", JVal.str "pat")])).1

/-- C7: batch-spec construction is deterministic, producing structurally
equal specs for identical (location, options) inputs. -/
theorem build_batch_spec_deterministic :
    ∀ (so : List (String × String)) (l1 : String) (k1 : PartitionKey)
      (l2 : String) (k2 : PartitionKey),
      l1 = l2 → k1 = k2 →
      build_batch_spec so l1 k1 = build_batch_spec so l2 k2 := by
  intro so l1 k1 l2 k2 h1 h2
  rw [h1, h2]

/-- C7 witness: two identical calls yield structurally equal specs. -/
theorem build_batch_spec_deterministic_witness :
    build_batch_spec [("orient", "records")] "data_2019.csv" [("year", "2019")] =
      build_batch_spec [("orient", "records")] "data_2019.csv" [("year", "2019")] :=
  build_batch_spec_deterministic [("orient", "records")] "data_2019.csv"
    [("year", "2019")] "data_2019.csv" [("year", "2019")] rfl rfl

/-- C8: sorting a sequence of partition keys by a sorter sequence and sorting
the result again yields the same sequence as sorting once. -/
theorem sortKeys_idempotent (S : List Sorter) (K : List PartitionKey) :
    sortKeys S (sortKeys S K) = sortKeys S K := by
  have hlaw : LawfulCmp fun a b : PartitionKey =>
      sortersCmp S (coerceKey K a) (coerceKey K b) :=
    (sortersCmp_lawful S).comap (coerceKey K)
  haveI : IsTotal PartitionKey (rawKeyLe S K) := ⟨fun a b => hlaw.le_total a b⟩
  haveI : IsTrans PartitionKey (rawKeyLe S K) :=
    ⟨fun a b c hab hbc => hlaw.le_trans hab hbc⟩
  have hsorted : List.Sorted (rawKeyLe S K) (sortKeys S K) :=
    List.sorted_insertionSort (rawKeyLe S K) K
  have hperm : (sortKeys S K).Perm K := List.perm_insertionSort _ K
  have hco : coerceKey (sortKeys S K) = coerceKey K := coerceKey_perm hperm
  have hrel : rawKeyLe S (sortKeys S K) = rawKeyLe S K := by
    funext a b
    show (sortersCmp S (coerceKey (sortKeys S K) a)
        (coerceKey (sortKeys S K) b) ≠ .gt) =
      (sortersCmp S (coerceKey K a) (coerceKey K b) ≠ .gt)
    rw [hco]
  have hsorted2 : List.Sorted (rawKeyLe S (sortKeys S K)) (sortKeys S K) := by
    rw [hrel]
    exact hsorted
  exact hsorted2.insertionSort_eq

/-- C8 witness: idempotence at a concrete sorter sequence and key set. -/
theorem sortKeys_idempotent_witness :
    sortKeys [⟨"year", true⟩]
        (sortKeys [⟨"year", true⟩] [[("year", "2018")], [("year", "2020")]]) =
      sortKeys [⟨"year", true⟩] [[("year", "2018")], [("year", "2020")]] :=
  sortKeys_idempotent [⟨"year", true⟩] [[("year", "2018")], [("year", "2020")]]

/-- C9 counterexample: the BatchDefinition schema accepts an object with no
partitioner at all (only `name` is required), and a partitioner value with
just a `regex` matches all four variant subschemas simultaneously, so a
validated BatchDefinition need not have exactly one active variant. -/
theorem batchDefinition_tagged_union_counterexample :
    (validBatchDefinition (JVal.obj [("name", JVal.str "definition")]) = true ∧
     hasExactlyOnePartitionerVariant
       (JVal.obj [("name", JVal.str "definition")]) = false) ∧
    (validBatchDefinition (JVal.obj [("name", JVal.str "definition"),
        ("partitioner", JVal.obj [("regex", JVal.str "pat")])]) = true ∧
     validFileNamePartitionerYearly (JVal.obj [("regex", JVal.str "pat")]) = true ∧
     validFileNamePartitionerMonthly (JVal.obj [("regex", JVal.str "pat")]) = true ∧
     validFileNamePartitionerDaily (JVal.obj [("regex", JVal.str "pat")]) = true ∧
     validFileNamePartitionerPath (JVal.obj [("regex", JVal.str "pat")]) = true ∧
     hasExactlyOnePartitionerVariant (JVal.obj [("name", JVal.str "definition"),
        ("partitioner", JVal.obj [("regex", JVal.str "pat")])]) = false) :=
  ⟨⟨rfl, rfl⟩, rfl, rfl, rfl, rfl, rfl, rfl⟩

/-- C9 amended: every object validated by the BatchDefinition schema has a
string `name`; its `partitioner` is optional, and when present it matches at
least one of the four partitioner variant subschemas (the anyOf union does
not enforce uniqueness of the matching variant). -/
theorem batchDefinition_partitioner_optional_anyOf :
    ∀ fs, validBatchDefinition (JVal.obj fs) = true →
      (∃ s, lookupField fs "name" = some (JVal.str s)) ∧
      (lookupField fs "partitioner" = none ∨
        ∃ pv, lookupField fs "partitioner" = some pv ∧
          (validFileNamePartitionerYearly pv || validFileNamePartitionerMonthly pv ||
           validFileNamePartitionerDaily pv || validFileNamePartitionerPath pv) = true) := by
  intro fs h
  simp only [validBatchDefinition, Bool.and_eq_true] at h
  obtain ⟨⟨hname, _⟩, hpart⟩ := h
  constructor
  · cases hn : lookupField fs "name" with
    | none =>
      rw [hn] at hname
      simp at hname
    | some v =>
      cases v <;> rw [hn] at hname <;> simp at hname
      exact ⟨_, rfl⟩
  · cases hp : lookupField fs "partitioner" with
    | none => exact Or.inl rfl
    | some pv =>
      rw [hp] at hpart
      exact Or.inr ⟨pv, rfl, hpart⟩

/-- C9 amended witness: a concrete validated definition with an optional
partitioner present. -/
theorem batchDefinition_partitioner_optional_anyOf_witness :
    (∃ s, lookupField [("name", JVal.str "bd")] "name" = some (JVal.str s)) ∧
    (lookupField ([("name", JVal.str "bd")] : List (String × JVal))
        "partitioner" = none ∨
      ∃ pv, lookupField ([("name", JVal.str "bd")] : List (String × JVal))
          "partitioner" = some pv ∧
        (validFileNamePartitionerYearly pv || validFileNamePartitionerMonthly pv ||
         validFileNamePartitionerDaily pv || validFileNamePartitionerPath pv) = true) :=
  batchDefinition_partitioner_optional_anyOf [("name", JVal.str "bd")] rfl

/-- C10: in the JSONAsset configuration schema `name` is the only required
property, an object missing it is rejected, and any object carrying a key not
among the declared properties is rejected (additionalProperties is false). -/
theorem jsonAsset_name_required_no_additional_properties :
    jsonAssetRequired = ["name"] ∧
    (∀ fs, lookupField fs "name" = none → validJSONAsset (JVal.obj fs) = false) ∧
    (∀ fs k v, (k, v) ∈ fs → k ∉ jsonAssetPropNames →
      validJSONAsset (JVal.obj fs) = false) := by
  refine ⟨rfl, ?_, ?_⟩
  · intro fs h
    simp only [validJSONAsset, h, Bool.false_and]
  · intro fs k v hm hk
    simp only [validJSONAsset]
    have hall : (fs.all fun kv =>
        decide (kv.1 ∈ jsonAssetPropNames) && checkJSONAssetProp kv.1 kv.2) = false := by
      rw [List.all_eq_false]
      refine ⟨(k, v), hm, ?_⟩
      simp [hk]
    rw [hall, Bool.and_false]

/-- C10 witness: a configuration with an undeclared `delimiter` key is
rejected. -/
theorem jsonAsset_name_required_no_additional_properties_witness :
    validJSONAsset (JVal.obj [("name", JVal.str "a"),
      ("delimiter", JVal.str ",")]) = false :=
  jsonAsset_name_required_no_additional_properties.2.2
    [("name", JVal.str "a"), ("delimiter", JVal.str ",")]
    "delimiter" (JVal.str ",")
    (List.mem_cons_of_mem _ (List.mem_cons_self _ _))
    (by decide)

end GXBatch
